import Mathlib

/-!
# DotMatrix — shallow embedding of the SM83 CPU core and memory bus

This file embeds the data model and operations of the DotMatrix emulator
core (`src/core/src/bus.rs`, `src/core/src/cpu.rs`,
`src/core/src/cartridge.rs`, `src/opcodes/src/mcode.rs`) in Lean 4 and
proves the spec's testable properties about them.

Conventions of the embedding:
- machine integers (`u8`, `u16`, `u64`) are `Nat` with explicit `% 256`,
  `% 65536`, reduction where overflow matters; 16-bit address arithmetic
  wraps modulo `2^16`, matching the bus code's documented wraparound
  behaviour;
- fatal conditions (Rust panics / `expect`) are modelled with
  `Except Diag`, where `Diag` enumerates the diagnostics the code can
  emit;
- the `proc_bitfield::bitfield!` register file is modelled as a single
  `Nat` backing value with per-field accessors; a field occupying bits
  `lo ..= hi` is read as `raw / 2^lo % 2^(hi-lo+1)` and written by
  splicing the new value into that bit range, which is exactly the bit
  mask-and-shift semantics of the macro written with `/`, `%`, `*`, `+`.
-/

namespace DotMatrix

/-! ## Micro-operations (`src/opcodes/src/mcode.rs`, `MCode`) -/

/-- The m-code micro-operations currently defined: `Nop` performs no
action; `Illegal` is an illegal instruction and halts execution
immediately when executed. -/
inductive MCode where
  | nop
  | illegal
deriving DecidableEq, Repr

/-! ## Memory bus (`src/core/src/bus.rs`) -/

/-- A 256-byte chunk of address space, indexed by a `u8` (`Page`).
Currently only the RAM variant exists; bytes are stored as `Nat` values
kept `< 256` by `Page.write`. -/
inductive Page where
  | ram (data : Fin 256 → Nat)

/-- `Page::read`: read the byte at an in-page index. -/
def Page.read (p : Page) (idx : Fin 256) : Nat :=
  match p with
  | .ram data => data idx

/-- `Page::write`: store a byte (`u8`, hence `% 256`) at an in-page
index; RAM pages always accept writes. -/
def Page.write (p : Page) (idx : Fin 256) (v : Nat) : Page :=
  match p with
  | .ram data => .ram (fun i => if i = idx then v % 256 else data i)

/-- `Page::new_ram`: RAM pages start filled with `0xFF`. -/
def Page.new_ram : Page :=
  .ram (fun _ => 0xFF)

/-- `Bus`: 256 pages of 256 bytes, addressed by splitting a 16-bit
address into low byte (index within page) and high byte (page
selector). -/
structure Bus where
  pages : Fin 256 → Page

/-- The page selector of a 16-bit address: the high byte of
`addr.to_le_bytes` (`[index, page]`). -/
def pageIdx (addr : Nat) : Fin 256 :=
  ⟨addr % 65536 / 256, by omega⟩

/-- The in-page index of a 16-bit address: the low byte of
`addr.to_le_bytes`. -/
def byteIdx (addr : Nat) : Fin 256 :=
  ⟨addr % 65536 % 256, by omega⟩

/-- `Bus::read`: split the (16-bit, hence `% 65536`) address via
`to_le_bytes` into `[index, page]` and read from that page. Total:
every address resolves to a page and an in-page offset. -/
def Bus.read (bus : Bus) (addr : Nat) : Nat :=
  (bus.pages (pageIdx addr)).read (byteIdx addr)

/-- `Bus::write`: split the address the same way and write into the
resolved page. -/
def Bus.write (bus : Bus) (addr v : Nat) : Bus :=
  ⟨fun p =>
    if p = pageIdx addr then (bus.pages (pageIdx addr)).write (byteIdx addr) v
    else bus.pages p⟩

/-- `Bus::read16`: read `addr` and `addr + 1` as little-endian
(`u16::from_le_bytes [lo, hi] = lo + 256 * hi`); `addr + 1` wraps
around modulo `2^16`, so reading at `0xFFFF` spans `0xFFFF` and
`0x0000`. -/
def Bus.read16 (bus : Bus) (addr : Nat) : Nat :=
  bus.read addr + 256 * bus.read ((addr + 1) % 65536)

/-- `Bus::write16`: `value.to_le_bytes` gives low byte `v % 256` and
high byte `v / 256 % 256`; the low byte goes to `addr`, the high byte
to `addr + 1` with the same 16-bit wraparound as `read16`. -/
def Bus.write16 (bus : Bus) (addr v : Nat) : Bus :=
  (bus.write addr (v % 256)).write ((addr + 1) % 65536) (v / 256 % 256)

/-- `Bus::new_dmg`: the standard memory map (currently all RAM). -/
def Bus.new_dmg : Bus :=
  ⟨fun _ => Page.new_ram⟩

/-- `Bus::flat`: an all-RAM bus for single-step conformance testing. -/
def Bus.flat : Bus :=
  ⟨fun _ => Page.new_ram⟩

/-! ## Cartridge (`src/core/src/cartridge.rs`) -/

/-- `Cartridge`: holds raw ROM bytes. -/
structure Cartridge where
  rom : List Nat

/-- `Cartridge::new`. -/
def Cartridge.new (data : List Nat) : Cartridge :=
  ⟨data⟩

/-- `Cartridge::read`: `self.rom[addr as usize]` — indexing a slice,
which panics when the index is out of bounds. The panic is modelled as
`none`; an in-bounds access returns the ROM byte. -/
def Cartridge.read (c : Cartridge) (addr : Nat) : Option Nat :=
  c.rom[addr]?

/-! ## Register file (`src/core/src/cpu.rs`, `Sm83Registers`)

The `bitfield!` macro packs all registers into one `u64`. Field layout
(bit offsets from the source): `f` at 0..=7 (getter masks with `0xF0`),
`a` at 8..=15, `af` at 0..=15 (getter masks with `0xFFF0`), `c` at
16..=23, `b` at 24..=31, `bc` at 16..=31, `e` at 32..=39, `d` at
40..=47, `de` at 32..=47, `l` at 48..=55, `h` at 56..=63, `hl` at
48..=63; flag bits `c/h/n/z` at bits 4/5/6/7. A mask `x & 0xF0`
(resp. `x & 0xFFF0`) on an 8-bit (resp. 16-bit) value is written
`x / 16 * 16`, which clears bits 0–3 identically. -/

/-- The packed 64-bit register file. -/
structure Sm83Registers where
  raw : Nat
deriving DecidableEq, Repr

/-- Carry flag, bit 4. -/
def Sm83Registers.c_flag (r : Sm83Registers) : Bool :=
  r.raw / 0x10 % 2 == 1

/-- Half-carry flag, bit 5. -/
def Sm83Registers.h_flag (r : Sm83Registers) : Bool :=
  r.raw / 0x20 % 2 == 1

/-- Subtraction flag, bit 6. -/
def Sm83Registers.n_flag (r : Sm83Registers) : Bool :=
  r.raw / 0x40 % 2 == 1

/-- Zero flag, bit 7. -/
def Sm83Registers.z_flag (r : Sm83Registers) : Bool :=
  r.raw / 0x80 % 2 == 1

/-- `f`, bits 0..=7, getter masked with `0xF0` (bits 0–3 read as 0). -/
def Sm83Registers.f (r : Sm83Registers) : Nat :=
  r.raw % 0x100 / 0x10 * 0x10

/-- setter for `f`: splice a `u8` into bits 0..=7 (the setter stores the
raw byte; only the getter masks). -/
def Sm83Registers.set_f (r : Sm83Registers) (v : Nat) : Sm83Registers :=
  ⟨v % 0x100 + r.raw / 0x100 * 0x100⟩

/-- `a`, bits 8..=15. -/
def Sm83Registers.a (r : Sm83Registers) : Nat :=
  r.raw / 0x100 % 0x100

/-- setter for `a`. -/
def Sm83Registers.set_a (r : Sm83Registers) (v : Nat) : Sm83Registers :=
  ⟨r.raw % 0x100 + v % 0x100 * 0x100 + r.raw / 0x10000 * 0x10000⟩

/-- `af`, bits 0..=15, getter masked with `0xFFF0`. -/
def Sm83Registers.af (r : Sm83Registers) : Nat :=
  r.raw % 0x10000 / 0x10 * 0x10

/-- setter for `af`. -/
def Sm83Registers.set_af (r : Sm83Registers) (v : Nat) : Sm83Registers :=
  ⟨v % 0x10000 + r.raw / 0x10000 * 0x10000⟩

/-- `c`, bits 16..=23. -/
def Sm83Registers.c (r : Sm83Registers) : Nat :=
  r.raw / 0x10000 % 0x100

/-- setter for `c`. -/
def Sm83Registers.set_c (r : Sm83Registers) (v : Nat) : Sm83Registers :=
  ⟨r.raw % 0x10000 + v % 0x100 * 0x10000 + r.raw / 0x1000000 * 0x1000000⟩

/-- `b`, bits 24..=31. -/
def Sm83Registers.b (r : Sm83Registers) : Nat :=
  r.raw / 0x1000000 % 0x100

/-- setter for `b`. -/
def Sm83Registers.set_b (r : Sm83Registers) (v : Nat) : Sm83Registers :=
  ⟨r.raw % 0x1000000 + v % 0x100 * 0x1000000 + r.raw / 0x100000000 * 0x100000000⟩

/-- `bc`, bits 16..=31. -/
def Sm83Registers.bc (r : Sm83Registers) : Nat :=
  r.raw / 0x10000 % 0x10000

/-- setter for `bc`. -/
def Sm83Registers.set_bc (r : Sm83Registers) (v : Nat) : Sm83Registers :=
  ⟨r.raw % 0x10000 + v % 0x10000 * 0x10000 + r.raw / 0x100000000 * 0x100000000⟩

/-- `e`, bits 32..=39. -/
def Sm83Registers.e (r : Sm83Registers) : Nat :=
  r.raw / 0x100000000 % 0x100

/-- setter for `e`. -/
def Sm83Registers.set_e (r : Sm83Registers) (v : Nat) : Sm83Registers :=
  ⟨r.raw % 0x100000000 + v % 0x100 * 0x100000000 + r.raw / 0x10000000000 * 0x10000000000⟩

/-- `d`, bits 40..=47. -/
def Sm83Registers.d (r : Sm83Registers) : Nat :=
  r.raw / 0x10000000000 % 0x100

/-- setter for `d`. -/
def Sm83Registers.set_d (r : Sm83Registers) (v : Nat) : Sm83Registers :=
  ⟨r.raw % 0x10000000000 + v % 0x100 * 0x10000000000 + r.raw / 0x1000000000000 * 0x1000000000000⟩

/-- `de`, bits 32..=47. -/
def Sm83Registers.de (r : Sm83Registers) : Nat :=
  r.raw / 0x100000000 % 0x10000

/-- setter for `de`. -/
def Sm83Registers.set_de (r : Sm83Registers) (v : Nat) : Sm83Registers :=
  ⟨r.raw % 0x100000000 + v % 0x10000 * 0x100000000 + r.raw / 0x1000000000000 * 0x1000000000000⟩

/-- `l`, bits 48..=55. -/
def Sm83Registers.l (r : Sm83Registers) : Nat :=
  r.raw / 0x1000000000000 % 0x100

/-- setter for `l`. -/
def Sm83Registers.set_l (r : Sm83Registers) (v : Nat) : Sm83Registers :=
  ⟨r.raw % 0x1000000000000 + v % 0x100 * 0x1000000000000 + r.raw / 0x100000000000000 * 0x100000000000000⟩

/-- `h`, bits 56..=63. -/
def Sm83Registers.h (r : Sm83Registers) : Nat :=
  r.raw / 0x100000000000000 % 0x100

/-- setter for `h`. -/
def Sm83Registers.set_h (r : Sm83Registers) (v : Nat) : Sm83Registers :=
  ⟨r.raw % 0x100000000000000 + v % 0x100 * 0x100000000000000
    + r.raw / 0x10000000000000000 * 0x10000000000000000⟩

/-- `hl`, bits 48..=63. -/
def Sm83Registers.hl (r : Sm83Registers) : Nat :=
  r.raw / 0x1000000000000 % 0x10000

/-- setter for `hl`. -/
def Sm83Registers.set_hl (r : Sm83Registers) (v : Nat) : Sm83Registers :=
  ⟨r.raw % 0x1000000000000 + v % 0x10000 * 0x1000000000000
    + r.raw / 0x10000000000000000 * 0x10000000000000000⟩

/-- `Sm83Registers::initial_dmg`: the DMG power-on register pattern,
the `u64` literal `0x01_4D_00_D8_00_13_01_B0` laid out
`HH LL DD EE BB CC AA FF` from the high byte down. -/
def Sm83Registers.initial_dmg : Sm83Registers :=
  ⟨0x014D00D8001301B0⟩

/-! ## Opcodes (`src/opcodes/build.rs` generated enumeration)

The `Opcode` enumeration is generated from `opcodes.json` with one
variant per opcode byte, `#[repr(u8)]` discriminant equal to the byte,
an exhaustive `From<u8>` mapping each byte to the variant with that
discriminant, and a `Display` impl giving the canonical mnemonic. An
opcode is therefore identified with its byte value. -/

/-- An opcode identifier: the closed 0–255 opcode space, identified by
byte value (the generated enum's `u8` discriminant). `Opcode::NOP`
is `0x00`. -/
abbrev Opcode := Nat

/-- `From<u8> for Opcode`: the generated exhaustive byte-to-variant
mapping, the identity on the byte value (`u8`, hence `% 256`). -/
def decodeOpcode (b : Nat) : Opcode :=
  b % 256

/-- Modelled from the spec: `Opcode::mcode()`, the opcode → micro-op
sequence decode table, lives in the opcodes crate's generated/library
code, which is not under `src/`. Per the spec (§4.3, §4.4, §8,
Decode completeness): the only implemented opcode in current scope is
NOP (`0x00`), whose sequence is the single no-op micro-operation; every
opcode whose behavior is not yet modeled decodes to the illegal marker;
decoding never yields an empty sequence. -/
def Opcode.mcode (op : Opcode) : List MCode :=
  if op = 0x00 then [.nop] else [.illegal]

/-- Modelled from the spec: the generated `Display` impl maps each
opcode to its canonical mnemonic string from `opcodes.json`, which is
not under `src/`; only the NOP mnemonic is pinned down by the spec's
scope, unimplemented opcodes display their table mnemonic (represented
here by the illegal marker's name). -/
def Opcode.display (op : Opcode) : String :=
  if op = 0x00 then "NOP" else "ILLEGAL"

/-! ## CPU execution engine (`src/core/src/cpu.rs`, `Sm83`) -/

/-- The diagnostics carried by the core's fatal conditions (Rust
panics): executing an illegal instruction (with the offending opcode's
numeric value and mnemonic), popping from an empty m-code queue, and
an out-of-fuel marker for the modelled `while` loop of
`exec_instruction`. -/
inductive Diag where
  | illegalInstruction (opcode : Nat) (mnemonic : String)
  | emptyQueuePop
  | outOfFuel
deriving DecidableEq, Repr

/-- The value of PC after running the boot ROM (`AFTER_BOOT_PC`). -/
def AFTER_BOOT_PC : Nat := 0x0100

/-- The value of SP after running the boot ROM (`AFTER_BOOT_SP`). -/
def AFTER_BOOT_SP : Nat := 0xFFFE

/-- The SM83 CPU state: register file, program counter, stack pointer,
instruction register, and the queue of m-codes to be executed over the
next few cycles (`VecDeque<MCode>` as a list, front at the head). -/
structure Sm83 where
  registers : Sm83Registers
  pc : Nat
  sp : Nat
  ir : Opcode
  mcode_queue : List MCode
deriving DecidableEq, Repr

/-- `Sm83::new_dmg`: a new CPU configured for use in a DMG. -/
def Sm83.new_dmg : Sm83 where
  registers := Sm83Registers.initial_dmg
  pc := AFTER_BOOT_PC
  sp := AFTER_BOOT_SP
  ir := 0x00
  mcode_queue := []

/-- `Sm83::fetch`: read the byte at PC, decode it into the IR, append
every entry of the opcode's m-code sequence to the back of the queue,
then increment PC by 1 (16-bit wraparound). -/
def Sm83.fetch (cpu : Sm83) (bus : Bus) : Sm83 :=
  let ir := decodeOpcode (bus.read cpu.pc)
  { cpu with
      ir := ir
      mcode_queue := cpu.mcode_queue ++ ir.mcode
      pc := (cpu.pc + 1) % 65536 }

/-- `Sm83::exec_mcode`: execute one popped micro-operation. `Nop` does
nothing; `Illegal` panics with the offending opcode's numeric value
(`self.ir as u8`) and its display mnemonic. -/
def Sm83.exec_mcode (cpu : Sm83) (m : MCode) (bus : Bus) : Except Diag (Sm83 × Bus) :=
  match m with
  | .nop => .ok (cpu, bus)
  | .illegal => .error (.illegalInstruction (cpu.ir % 256) cpu.ir.display)

/-- Steps 2–3 of `Sm83::exec_m_cycle`: pop one micro-operation from
the front of the queue — popping from an empty queue is the fatal
`expect("Attempted to pop from empty mcode_queue")` — and execute
it. -/
def Sm83.pop_exec (cpu : Sm83) (bus : Bus) : Except Diag (Sm83 × Bus) :=
  match cpu.mcode_queue with
  | [] => .error .emptyQueuePop
  | m :: rest => Sm83.exec_mcode { cpu with mcode_queue := rest } m bus

/-- `Sm83::exec_m_cycle`: if the queue length is at most 1, fetch
(fetch of the next instruction overlaps the current instruction's last
cycle); then pop and execute one micro-operation. -/
def Sm83.exec_m_cycle (cpu : Sm83) (bus : Bus) : Except Diag (Sm83 × Bus) :=
  Sm83.pop_exec (if cpu.mcode_queue.length ≤ 1 then cpu.fetch bus else cpu) bus

/-- The `while let Some(mcode) = self.mcode_queue.pop_front()` loop of
`exec_instruction`, written with explicit fuel (no micro-operation in
current scope pushes onto the queue, so fuel equal to the queue length
is always sufficient and `outOfFuel` is unreachable from
`exec_instruction`). -/
def Sm83.run_queue : Nat → Sm83 → Bus → Except Diag (Sm83 × Bus)
  | fuel, cpu, bus =>
    match cpu.mcode_queue with
    | [] => .ok (cpu, bus)
    | m :: rest =>
      match fuel with
      | 0 => .error .outOfFuel
      | fuel + 1 =>
        match Sm83.exec_mcode { cpu with mcode_queue := rest } m bus with
        | .error e => .error e
        | .ok (c, b) => Sm83.run_queue fuel c b

/-- `Sm83::exec_instruction`: fetch if the queue is empty, then pop and
execute micro-operations until the queue is empty (testing entry point,
no fetch/execute overlap). -/
def Sm83.exec_instruction (cpu : Sm83) (bus : Bus) : Except Diag (Sm83 × Bus) :=
  let cpu := if cpu.mcode_queue.isEmpty then cpu.fetch bus else cpu
  Sm83.run_queue cpu.mcode_queue.length cpu bus

/-- Iterate `exec_m_cycle` a given number of times, stopping at the
first fatal diagnostic. -/
def Sm83.exec_m_cycles : Nat → Sm83 → Bus → Except Diag (Sm83 × Bus)
  | 0, cpu, bus => .ok (cpu, bus)
  | k + 1, cpu, bus =>
    match cpu.exec_m_cycle bus with
    | .error e => .error e
    | .ok (c, b) => Sm83.exec_m_cycles k c b

/-! ## Helper lemmas -/

theorem Page.read_write_eq_idx (p : Page) (i : Fin 256) (v : Nat) :
    (p.write i v).read i = v % 256 := by
  cases p with
  | ram data => simp [Page.read, Page.write]

theorem Page.read_write_ne_idx (p : Page) (i j : Fin 256) (v : Nat) (h : j ≠ i) :
    (p.write i v).read j = p.read j := by
  cases p with
  | ram data => simp [Page.read, Page.write, h]

theorem Bus.read_write_same (bus : Bus) (a v : Nat) :
    (bus.write a v).read a = v % 256 := by
  simp [Bus.read, Bus.write, Page.read_write_eq_idx]

theorem Bus.read_write_other (bus : Bus) (a b v : Nat)
    (h : a % 65536 ≠ b % 65536) :
    (bus.write a v).read b = bus.read b := by
  unfold Bus.read Bus.write
  by_cases hp : pageIdx b = pageIdx a
  · have hib : byteIdx b ≠ byteIdx a := by
      intro hi
      apply h
      have h1 : a % 65536 / 256 = b % 65536 / 256 := congrArg Fin.val hp.symm
      have h2 : a % 65536 % 256 = b % 65536 % 256 := congrArg Fin.val hi.symm
      omega
    simp [hp, Page.read_write_ne_idx _ _ _ _ hib]
  · simp [hp]

theorem Opcode.mcode_ne_nil (op : Opcode) : op.mcode ≠ [] := by
  unfold Opcode.mcode
  split <;> simp

theorem Sm83.exec_mcode_ne_underrun (cpu : Sm83) (m : MCode) (bus : Bus) :
    cpu.exec_mcode m bus ≠ .error .emptyQueuePop := by
  cases m <;> simp [Sm83.exec_mcode]

/-! ## Claim theorems -/

/-- C1: for every bus state and every 16-bit value `v`,
`write16 0xFFFF v` followed by `read16 0xFFFF` returns `v`, with the
low byte stored at address `0xFFFF` and the high byte landing at
address `0x0000`; the `address + 1` computation wraps modulo `2^16`,
so the operations at `0xFFFF` succeed. -/
theorem write16_read16_wraparound (bus : Bus) (v : Nat) :
    ((bus.write16 0xFFFF v).read16 0xFFFF = v % 65536) ∧
    ((bus.write16 0xFFFF v).read 0xFFFF = v % 256) ∧
    ((bus.write16 0xFFFF v).read 0x0000 = v / 256 % 256) := by
  have hlow : (bus.write16 0xFFFF v).read 0xFFFF = v % 256 := by
    unfold Bus.write16
    rw [Bus.read_write_other _ _ _ _ (by norm_num), Bus.read_write_same]
    omega
  have hhigh : (bus.write16 0xFFFF v).read 0x0000 = v / 256 % 256 := by
    unfold Bus.write16
    rw [show ((0xFFFF + 1) % 65536 : Nat) = 0x0000 by norm_num, Bus.read_write_same]
    omega
  refine ⟨?_, hlow, hhigh⟩
  unfold Bus.read16
  rw [show ((0xFFFF + 1) % 65536 : Nat) = 0x0000 by norm_num, hlow, hhigh]
  omega

/-- C2: `fetch` reads the byte at PC, sets IR to the decoded opcode,
appends that opcode's whole micro-operation sequence to the back of
the queue (existing entries stay in place, in order), and increments
PC by exactly 1 modulo `2^16` (so PC `0xFFFF` wraps to `0x0000`);
registers and SP are untouched. -/
theorem fetch_behaviour (cpu : Sm83) (bus : Bus) :
    ((cpu.fetch bus).ir = decodeOpcode (bus.read cpu.pc)) ∧
    ((cpu.fetch bus).mcode_queue
      = cpu.mcode_queue ++ (decodeOpcode (bus.read cpu.pc)).mcode) ∧
    ((cpu.fetch bus).pc = (cpu.pc + 1) % 65536) ∧
    ((cpu.fetch bus).registers = cpu.registers) ∧
    ((cpu.fetch bus).sp = cpu.sp) := by
  refine ⟨rfl, rfl, rfl, rfl, rfl⟩

/-- C4: executing the `Illegal` micro-operation is fatal for every CPU
state and bus: `exec_mcode` on `Illegal` yields exactly the diagnostic
carrying the offending opcode's numeric value and its mnemonic, and
never returns normally. -/
theorem exec_mcode_illegal_fatal (cpu : Sm83) (bus : Bus) :
    (cpu.exec_mcode .illegal bus
      = .error (.illegalInstruction (cpu.ir % 256) cpu.ir.display)) ∧
    (∀ r : Sm83 × Bus, cpu.exec_mcode .illegal bus ≠ .ok r) := by
  exact ⟨rfl, fun r => by simp [Sm83.exec_mcode]⟩

/-- C7: the CPU constructed for the DMG hardware revision has exactly
A=0x01, F=0xB0, B=0x00, C=0x13, D=0x00, E=0xD8, H=0x01, L=0x4D,
SP=0xFFFE, PC=0x0100. -/
theorem new_dmg_initial_state :
    Sm83.new_dmg.registers.a = 0x01 ∧
    Sm83.new_dmg.registers.f = 0xB0 ∧
    Sm83.new_dmg.registers.b = 0x00 ∧
    Sm83.new_dmg.registers.c = 0x13 ∧
    Sm83.new_dmg.registers.d = 0x00 ∧
    Sm83.new_dmg.registers.e = 0xD8 ∧
    Sm83.new_dmg.registers.h = 0x01 ∧
    Sm83.new_dmg.registers.l = 0x4D ∧
    Sm83.new_dmg.sp = 0xFFFE ∧
    Sm83.new_dmg.pc = 0x0100 := by
  decide

/-- C10: `Cartridge::read` is not total over the address space: on a
cartridge built from ROM bytes `data`, reading `addr` returns the ROM
byte at index `addr` when `addr < data.length`, and is the fatal
out-of-bounds panic (modelled `none`) when `addr ≥ data.length`. -/
theorem cartridge_read_partial (data : List Nat) (addr : Nat) :
    (Cartridge.new data).read addr
      = if h : addr < data.length then some (data.get ⟨addr, h⟩) else none := by
  unfold Cartridge.new Cartridge.read
  by_cases h : addr < data.length
  · simp [h, List.getElem?_eq_getElem, List.get_eq_getElem]
  · have hn : data.length ≤ addr := by omega
    simp [h, List.getElem?_eq_none hn]

/-- C3: in `exec_m_cycle`, after the conditional fetch (taken whenever
the queue length is at most 1) the queue is non-empty, so the pop
always succeeds: the `Attempted to pop from empty mcode_queue` fatal
branch is unreachable for every CPU state and bus, because every
opcode's decoded micro-operation sequence is non-empty. -/
theorem exec_m_cycle_no_underrun (cpu : Sm83) (bus : Bus) :
    cpu.exec_m_cycle bus ≠ Except.error Diag.emptyQueuePop := by
  have key : ∀ c : Sm83, c.mcode_queue ≠ [] →
      Sm83.pop_exec c bus ≠ Except.error Diag.emptyQueuePop := by
    intro c hne
    unfold Sm83.pop_exec
    rcases hmc : c.mcode_queue with _ | ⟨m, rest⟩
    · exact absurd hmc hne
    · exact Sm83.exec_mcode_ne_underrun _ m bus
  unfold Sm83.exec_m_cycle
  apply key
  split
  · simp [Sm83.fetch, Opcode.mcode_ne_nil]
  · next hlen =>
    intro h0
    rw [h0] at hlen
    simp at hlen

/-- C5: register/flag aliasing. Writing an 8-bit half-register is
reflected in the correct byte of its paired 16-bit register; writing a
16-bit combined register is reflected in both of its 8-bit halves; and
every value written to F reads back (through F and through the low
byte of AF) with bits 0–3 forced to 0 (`x / 16 * 16` is `x & 0xF0`). -/
theorem register_flag_aliasing (r : Sm83Registers) (v : Nat) :
    ((r.set_a v).af / 0x100 = v % 0x100) ∧
    ((r.set_f v).af % 0x100 = v % 0x100 / 0x10 * 0x10) ∧
    ((r.set_b v).bc / 0x100 = v % 0x100) ∧
    ((r.set_c v).bc % 0x100 = v % 0x100) ∧
    ((r.set_d v).de / 0x100 = v % 0x100) ∧
    ((r.set_e v).de % 0x100 = v % 0x100) ∧
    ((r.set_h v).hl / 0x100 = v % 0x100) ∧
    ((r.set_l v).hl % 0x100 = v % 0x100) ∧
    ((r.set_af v).a = v % 0x10000 / 0x100) ∧
    ((r.set_af v).f = v % 0x100 / 0x10 * 0x10) ∧
    ((r.set_bc v).b = v % 0x10000 / 0x100) ∧
    ((r.set_bc v).c = v % 0x100) ∧
    ((r.set_de v).d = v % 0x10000 / 0x100) ∧
    ((r.set_de v).e = v % 0x100) ∧
    ((r.set_hl v).h = v % 0x10000 / 0x100) ∧
    ((r.set_hl v).l = v % 0x100) ∧
    ((r.set_f v).f = v % 0x100 / 0x10 * 0x10) ∧
    ((r.set_f v).f % 0x10 = 0) := by
  refine ⟨?_, ?_, ?_, ?_, ?_, ?_, ?_, ?_, ?_, ?_, ?_, ?_, ?_, ?_, ?_, ?_, ?_, ?_⟩ <;>
    · simp only [Sm83Registers.set_a, Sm83Registers.set_b, Sm83Registers.set_c,
        Sm83Registers.set_d, Sm83Registers.set_e, Sm83Registers.set_f,
        Sm83Registers.set_h, Sm83Registers.set_l, Sm83Registers.set_af,
        Sm83Registers.set_bc, Sm83Registers.set_de, Sm83Registers.set_hl,
        Sm83Registers.a, Sm83Registers.b, Sm83Registers.c, Sm83Registers.d,
        Sm83Registers.e, Sm83Registers.f, Sm83Registers.h, Sm83Registers.l,
        Sm83Registers.af, Sm83Registers.bc, Sm83Registers.de, Sm83Registers.hl]
      omega

/-- C6: every one of the 65536 addresses resolves to exactly one page
and one in-page offset, `Bus::read` reads exactly that byte (never
fails, no address is unmapped), and — all pages being RAM — writing a
byte then reading the same address returns the written value. -/
theorem bus_coverage_roundtrip (bus : Bus) (a v : Nat) (ha : a < 65536) :
    (∃ p i : Fin 256, a = 256 * p.val + i.val ∧
        bus.read a = (bus.pages p).read i ∧
        ∀ p' i' : Fin 256, a = 256 * p'.val + i'.val → p' = p ∧ i' = i) ∧
    (bus.write a v).read a = v % 256 := by
  refine ⟨⟨pageIdx a, byteIdx a, ?_, rfl, ?_⟩, Bus.read_write_same bus a v⟩
  · simp only [pageIdx, byteIdx]
    omega
  · intro p' i' h
    have hp' : p'.val < 256 := p'.isLt
    have hi' : i'.val < 256 := i'.isLt
    constructor
    · apply Fin.ext
      simp only [pageIdx]
      omega
    · apply Fin.ext
      simp only [byteIdx]
      omega

/-- Witness for C6 at bus `Bus.flat`, address `0x1234`, value `0xAB`. -/
theorem bus_coverage_roundtrip_witness :
    (0x1234 : Nat) < 65536 ∧
    ((∃ p i : Fin 256, 0x1234 = 256 * p.val + i.val ∧
        Bus.flat.read 0x1234 = (Bus.flat.pages p).read i ∧
        ∀ p' i' : Fin 256, 0x1234 = 256 * p'.val + i'.val → p' = p ∧ i' = i) ∧
      (Bus.flat.write 0x1234 0xAB).read 0x1234 = 0xAB % 256) :=
  ⟨by norm_num, bus_coverage_roundtrip Bus.flat 0x1234 0xAB (by norm_num)⟩

theorem Sm83.exec_m_cycle_nop (cpu : Sm83) (bus : Bus)
    (hbus : ∀ a : Nat, bus.read a = 0) (hq : cpu.mcode_queue = []) :
    cpu.exec_m_cycle bus
      = .ok ({ cpu with pc := (cpu.pc + 1) % 65536, ir := 0,
                        mcode_queue := [] }, bus) := by
  simp [Sm83.exec_m_cycle, Sm83.pop_exec, Sm83.fetch, hq, hbus,
    decodeOpcode, Opcode.mcode, Sm83.exec_mcode]

theorem Sm83.exec_m_cycles_nop (k : Nat) (cpu : Sm83) (bus : Bus)
    (hbus : ∀ a : Nat, bus.read a = 0) (hq : cpu.mcode_queue = [])
    (hpc : cpu.pc < 65536) :
    Sm83.exec_m_cycles k cpu bus
      = .ok ({ cpu with pc := (cpu.pc + k) % 65536,
                        ir := if k = 0 then cpu.ir else 0,
                        mcode_queue := [] }, bus) := by
  obtain ⟨regs, pc, sp, ir, q⟩ := cpu
  simp only at hq hpc
  subst hq
  induction k generalizing pc ir with
  | zero =>
    simp [Sm83.exec_m_cycles, Nat.mod_eq_of_lt hpc]
  | succ n ih =>
    rw [Sm83.exec_m_cycles, Sm83.exec_m_cycle_nop _ bus hbus rfl]
    dsimp only
    rw [ih ((pc + 1) % 65536) 0 (by omega)]
    have hpc2 : ((pc + 1) % 65536 + n) % 65536 = (pc + (n + 1)) % 65536 := by
      omega
    simp [hpc2]

/-- C8: fetch/execute overlap. `exec_m_cycle` performs a fetch (then
pops) exactly when the pending queue length is at most 1, and pops
without fetching otherwise; consequently, on a bus whose every read
returns the NOP opcode `0x00`, starting from an empty queue, each call
completes one whole NOP instruction: `k` consecutive calls advance PC
by exactly `k` (modulo `2^16`) and leave the queue empty — no extra
cycle per instruction boundary. -/
theorem exec_m_cycle_overlap (cpu : Sm83) (bus : Bus) (k : Nat)
    (hbus : ∀ a : Nat, bus.read a = 0) (hq : cpu.mcode_queue = [])
    (hpc : cpu.pc < 65536) :
    (∀ (c : Sm83) (b : Bus), 2 ≤ c.mcode_queue.length →
        c.exec_m_cycle b = Sm83.pop_exec c b) ∧
    (∀ (c : Sm83) (b : Bus), c.mcode_queue.length ≤ 1 →
        c.exec_m_cycle b = Sm83.pop_exec (c.fetch b) b) ∧
    Sm83.exec_m_cycles k cpu bus
      = .ok ({ cpu with pc := (cpu.pc + k) % 65536,
                        ir := if k = 0 then cpu.ir else 0,
                        mcode_queue := [] }, bus) := by
  refine ⟨?_, ?_, Sm83.exec_m_cycles_nop k cpu bus hbus hq hpc⟩
  · intro c b hlen
    unfold Sm83.exec_m_cycle
    rw [if_neg (by omega)]
  · intro c b hlen
    unfold Sm83.exec_m_cycle
    rw [if_pos hlen]

/-- An all-RAM bus whose every byte is `0x00` (the NOP opcode). -/
def busAllNop : Bus :=
  ⟨fun _ => Page.ram (fun _ => 0)⟩

/-- Witness for C8: the DMG power-on CPU on the all-NOP bus, three
m-cycles. -/
theorem exec_m_cycle_overlap_witness :
    (∀ a : Nat, busAllNop.read a = 0) ∧ Sm83.new_dmg.mcode_queue = [] ∧
    Sm83.new_dmg.pc < 65536 ∧
    ((∀ (c : Sm83) (b : Bus), 2 ≤ c.mcode_queue.length →
        c.exec_m_cycle b = Sm83.pop_exec c b) ∧
     (∀ (c : Sm83) (b : Bus), c.mcode_queue.length ≤ 1 →
        c.exec_m_cycle b = Sm83.pop_exec (c.fetch b) b) ∧
     Sm83.exec_m_cycles 3 Sm83.new_dmg busAllNop
       = .ok ({ Sm83.new_dmg with pc := (Sm83.new_dmg.pc + 3) % 65536,
                                   ir := if 3 = 0 then Sm83.new_dmg.ir else 0,
                                   mcode_queue := [] }, busAllNop)) :=
  ⟨fun _ => rfl, rfl, by decide,
    exec_m_cycle_overlap Sm83.new_dmg busAllNop 3 (fun _ => rfl) rfl (by decide)⟩

/-- The C9 scenario bus: flat RAM with the NOP byte `0x00` written at
address `0x0000`. -/
def nopScenarioBus : Bus :=
  Bus.flat.write 0x0000 0x00

/-- C9: end-to-end NOP scenario. From a flat RAM bus with `0x00` (NOP)
at address `0x0000` and a CPU with `pc = 0x0000`, `sp = 0xFFFE` and an
empty micro-op queue, one `exec_instruction` terminates normally with
`pc = 0x0001`, SP and every register and flag unchanged, the bus
untouched, and the queue empty again. -/
theorem exec_instruction_nop_scenario (regs : Sm83Registers) (ir0 : Opcode) :
    Sm83.exec_instruction
        { registers := regs, pc := 0x0000, sp := 0xFFFE, ir := ir0,
          mcode_queue := [] }
        nopScenarioBus
      = .ok ({ registers := regs, pc := 0x0001, sp := 0xFFFE, ir := 0x00,
               mcode_queue := [] }, nopScenarioBus) := by
  have hread : nopScenarioBus.read 0 = 0 := rfl
  simp [Sm83.exec_instruction, Sm83.fetch, Sm83.run_queue, hread, decodeOpcode,
    Opcode.mcode, Sm83.exec_mcode]

end DotMatrix
